import Mathlib

/-!
Verification of the RAG ingestion and similarity-search pipeline:
the cosine-similarity search engine in src/lib/utils/vector-search.ts
and the upload post-processing (chunk filtering, embedding truncation
and normalization, degraded-mode error handling) in the upload route.

Modelling conventions:
* JavaScript numbers are modelled as exact rationals.  Math.sqrt is not
  rational-valued, so every function that calls it takes an explicit
  square-root function `sq : ℚ → ℚ` as a parameter; theorems that need
  facts about Math.sqrt assume only `sq 0 = 0` and that `sq` is nonzero
  on positive inputs, both true of the real square root.  For concrete
  evaluation `sqrtModel` (the identity) is used; it satisfies both laws.
* A thrown exception is modelled as `Except.error`.
* JavaScript division, which never throws and yields NaN or a signed
  infinity when the divisor is zero, is modelled by `jsDiv` returning a
  `JSNum` (a rational, NaN, or a signed infinity).
-/

attribute [local semireducible] Rat.add Rat.mul Rat.sub Rat.inv

deriving instance DecidableEq for Except

/-- The only error thrown inside the search engine: the length guard of
cosineSimilarity (a dimension mismatch between two vectors). -/
inductive SearchError where
  | dimensionMismatch
deriving DecidableEq, Repr

/-- Sum of squares of a vector: the value the code accumulates in
normA / normB before taking the square root. -/
def sumSq (v : List ℚ) : ℚ :=
  (v.map (fun x => x * x)).sum

/-- The dot-product accumulation of the cosineSimilarity loop (the two
vectors have equal length whenever this is reached). -/
def dotList (a b : List ℚ) : ℚ :=
  (List.zipWith (fun x y => x * y) a b).sum

/-- cosineSimilarity from src/lib/utils/vector-search.ts: throws on a
length mismatch, returns 0 if either norm is zero, otherwise the dot
product divided by the product of the norms.  `sq` models Math.sqrt. -/
def cosineSimilarity (sq : ℚ → ℚ) (vecA vecB : List ℚ) : Except SearchError ℚ :=
  if vecA.length ≠ vecB.length then
    .error .dimensionMismatch
  else
    let dotProduct := dotList vecA vecB
    let normA := sq (sumSq vecA)
    let normB := sq (sumSq vecB)
    if normA = 0 ∨ normB = 0 then
      .ok 0
    else
      .ok (dotProduct / (normA * normB))

/-- One stored document, as read back from the document store:
the fields of the Document model used by searchSimilarDocuments. -/
structure StoredDocument where
  _id : String
  userId : String
  fileName : String
  chunks : List String
  embeddings : List (List ℚ)
  metadata : String
deriving DecidableEq, Repr

/-- One element of the array searchSimilarDocuments returns. -/
structure SearchResult where
  documentId : String
  fileName : String
  chunkIndex : Nat
  chunk : String
  similarity : ℚ
  metadata : String
deriving DecidableEq, Repr

/-- The comparator (a, b) => b.similarity - a.similarity passed to the
stable Array.prototype.sort, as a Boolean order: a may precede b when
a.similarity is at least b.similarity (descending order). -/
def resultLE (a b : SearchResult) : Bool :=
  decide (b.similarity ≤ a.similarity)

/-- The inner loop of searchSimilarDocuments over one document:
for each chunk index i, compute the cosine similarity of the query with
embeddings[i] (a throw aborts everything) and keep the result record when
the similarity reaches the threshold.  `i` is the running chunk index. -/
def scanChunks (sq : ℚ → ℚ) (q : List ℚ) (threshold : ℚ) (doc : StoredDocument) :
    Nat → List (List ℚ) → Except SearchError (List SearchResult)
  | _, [] => .ok []
  | i, emb :: rest =>
    match cosineSimilarity sq q emb with
    | .error e => .error e
    | .ok s =>
      match scanChunks sq q threshold doc (i + 1) rest with
      | .error e => .error e
      | .ok tail =>
        if threshold ≤ s then
          .ok (⟨doc._id, doc.fileName, i, doc.chunks.getD i "", s, doc.metadata⟩ :: tail)
        else
          .ok tail

/-- The outer loop of searchSimilarDocuments: every document with a
non-empty embeddings array contributes its kept results, in document
retrieval order; any throw aborts the whole loop. -/
def collectResults (sq : ℚ → ℚ) (q : List ℚ) (threshold : ℚ) :
    List StoredDocument → Except SearchError (List SearchResult)
  | [] => .ok []
  | doc :: rest =>
    match (if 0 < doc.embeddings.length then scanChunks sq q threshold doc 0 doc.embeddings else .ok []) with
    | .error e => .error e
    | .ok here =>
      match collectResults sq q threshold rest with
      | .error e => .error e
      | .ok there => .ok (here ++ there)

/-- searchSimilarDocuments from src/lib/utils/vector-search.ts.
The document store is modelled as the list `db`; Document.find selects
the documents whose userId matches, preserving stored order.  The kept
results are sorted by similarity descending with a stable sort
(Array.prototype.sort is stable) and truncated to `limit`. -/
def searchSimilarDocuments (sq : ℚ → ℚ) (queryEmbedding : List ℚ) (userId : String)
    (limit : Nat) (similarityThreshold : ℚ) (db : List StoredDocument) :
    Except SearchError (List SearchResult) :=
  let documents := db.filter (fun d => d.userId == userId)
  match collectResults sq queryEmbedding similarityThreshold documents with
  | .error e => .error e
  | .ok results => .ok ((results.mergeSort resultLE).take limit)

/-- A JavaScript number that can be NaN or a signed infinity: the
possible outcomes of dividing one finite number by another. -/
inductive JSNum where
  | nan
  | posInf
  | negInf
  | num (val : ℚ)
deriving DecidableEq, Repr

/-- JavaScript division on finite operands: x / 0 is NaN when x = 0 and
a signed infinity otherwise; no exception is ever thrown. -/
def jsDiv (x y : ℚ) : JSNum :=
  if y = 0 then
    if x = 0 then .nan else if 0 < x then .posInf else .negInf
  else
    .num (x / y)

/-- The per-vector post-processing of the upload route (part_001 lines
324-332): truncate the raw vector to its first 768 components with
slice(0, 768), compute the magnitude of the truncated vector, and divide
every component by that magnitude — unconditionally, with no zero check. -/
def normalizeEmbedding (sq : ℚ → ℚ) (values : List ℚ) : List JSNum :=
  let truncatedValues := values.take 768
  let magnitude := sq (sumSq truncatedValues)
  truncatedValues.map (fun val => jsDiv val magnitude)

/-- A concrete stand-in for Math.sqrt used only to evaluate the model on
concrete inputs.  It satisfies the two laws the theorems assume of
Math.sqrt: it sends 0 to 0 and positive rationals to nonzero values. -/
def sqrtModel (q : ℚ) : ℚ := q

/-- JavaScript String.prototype.trim, modelled structurally over the
character list: drop whitespace from both ends of the string. -/
def jsTrim (s : String) : String :=
  ⟨((s.data.dropWhile Char.isWhitespace).reverse.dropWhile Char.isWhitespace).reverse⟩

/-- The empty-chunk filter of the upload route:
chunks.filter(chunk => chunk.trim().length > 0). -/
def filterChunks (chunks : List String) : List String :=
  chunks.filter (fun chunk => decide (0 < (jsTrim chunk).length))

/-- Outcome of the embedding-generation try block: either the raw
vectors from the service, or a thrown error (missing key, auth failure,
service error) carrying its message. -/
inductive EmbedOutcome where
  | success (raw : List (List ℚ))
  | failure (message : String)

/-- The fields of the upload route's JSON response that the pipeline
computes from the chunks and embeddings. -/
structure UploadResponse where
  success : Bool
  fileName : String
  chunkCount : Nat
  embeddingCount : Nat
  hasEmbeddings : Bool
  embeddingError : Option String
  chunks : List String
  embeddings : List (List JSNum)
deriving Repr

/-- The document record handed to Document.create by the upload route. -/
structure SavedDocument where
  userId : String
  fileName : String
  chunks : List String
  embeddings : List (List JSNum)
deriving Repr

/-- The upload pipeline from chunk filtering onward (part_001 lines
283-433): filter empty chunks; run the embedding step, whose failure is
caught (embeddings stays empty and the error message is recorded) and on
success maps normalizeEmbedding over the raw vectors; build the response
(success is unconditionally true at this point) and the document record
that is persisted. -/
def processUpload (sq : ℚ → ℚ) (userId fileName : String) (rawChunks : List String)
    (outcome : EmbedOutcome) : UploadResponse × SavedDocument :=
  let chunks := filterChunks rawChunks
  let embeddingsAndError : List (List JSNum) × Option String :=
    match outcome with
    | .success raw => (raw.map (normalizeEmbedding sq), none)
    | .failure msg => ([], some msg)
  let embeddings := embeddingsAndError.1
  let embeddingError := embeddingsAndError.2
  (⟨true, fileName, chunks.length, embeddings.length,
      decide (0 < embeddings.length), embeddingError, chunks, embeddings⟩,
   ⟨userId, fileName, chunks, embeddings⟩)

theorem sumSq_nonneg (v : List ℚ) : 0 ≤ sumSq v := by
  induction v with
  | nil => simp [sumSq]
  | cons x xs ih =>
    simp only [sumSq, List.map_cons, List.sum_cons]
    simp only [sumSq] at ih
    exact add_nonneg (mul_self_nonneg x) ih

theorem sumSq_eq_zero_iff (v : List ℚ) : sumSq v = 0 ↔ ∀ x ∈ v, x = 0 := by
  induction v with
  | nil => simp [sumSq]
  | cons x xs ih =>
    simp only [sumSq, List.map_cons, List.sum_cons, List.mem_cons]
    have hx : (0:ℚ) ≤ x * x := mul_self_nonneg x
    have hxs : (0:ℚ) ≤ (xs.map (fun y => y * y)).sum := sumSq_nonneg xs
    rw [add_eq_zero_iff_of_nonneg hx hxs]
    simp only [sumSq] at ih
    rw [mul_self_eq_zero, ih]
    constructor
    · rintro ⟨h1, h2⟩ y (rfl | hy)
      · exact h1
      · exact h2 y hy
    · intro h
      exact ⟨h x (Or.inl rfl), fun y hy => h y (Or.inr hy)⟩

theorem cosineSimilarity_error_of_ne (sq : ℚ → ℚ) (a b : List ℚ)
    (h : a.length ≠ b.length) :
    cosineSimilarity sq a b = .error .dimensionMismatch := by
  simp [cosineSimilarity, h]

theorem cosineSimilarity_ok_of_eq (sq : ℚ → ℚ) (a b : List ℚ)
    (h : a.length = b.length) :
    ∃ s, cosineSimilarity sq a b = .ok s := by
  simp only [cosineSimilarity, h, ne_eq, not_true_eq_false, if_false]
  split
  · exact ⟨0, rfl⟩
  · exact ⟨_, rfl⟩

theorem cosineSimilarity_length_of_ok (sq : ℚ → ℚ) (a b : List ℚ) (s : ℚ)
    (h : cosineSimilarity sq a b = .ok s) : a.length = b.length := by
  by_contra hne
  rw [cosineSimilarity_error_of_ne sq a b hne] at h
  cases h

theorem scanChunks_ok_forall (sq : ℚ → ℚ) (q : List ℚ) (t : ℚ) (doc : StoredDocument) :
    ∀ (i : Nat) (embs : List (List ℚ)) (l : List SearchResult),
    scanChunks sq q t doc i embs = .ok l →
    ∀ r ∈ l, t ≤ r.similarity ∧ r.documentId = doc._id ∧ r.fileName = doc.fileName := by
  intro i embs
  induction embs generalizing i with
  | nil =>
    intro l h r hr
    simp only [scanChunks, Except.ok.injEq] at h
    subst h
    cases hr
  | cons e rest ih =>
    intro l h r hr
    cases hc : cosineSimilarity sq q e with
    | error err => simp [scanChunks, hc] at h
    | ok s =>
      cases hrec : scanChunks sq q t doc (i + 1) rest with
      | error err => simp [scanChunks, hc, hrec] at h
      | ok tail =>
        simp only [scanChunks, hc, hrec] at h
        by_cases hts : t ≤ s
        · rw [if_pos hts, Except.ok.injEq] at h
          subst h
          cases hr with
          | head => exact ⟨hts, rfl, rfl⟩
          | tail _ hr => exact ih (i + 1) tail hrec r hr
        · rw [if_neg hts, Except.ok.injEq] at h
          subst h
          exact ih (i + 1) tail hrec r hr

theorem scanChunks_ok_lengths (sq : ℚ → ℚ) (q : List ℚ) (t : ℚ) (doc : StoredDocument) :
    ∀ (i : Nat) (embs : List (List ℚ)) (l : List SearchResult),
    scanChunks sq q t doc i embs = .ok l →
    ∀ e ∈ embs, e.length = q.length := by
  intro i embs
  induction embs generalizing i with
  | nil =>
    intro l _ e he
    cases he
  | cons e0 rest ih =>
    intro l h e he
    cases hc : cosineSimilarity sq q e0 with
    | error err => simp [scanChunks, hc] at h
    | ok s =>
      cases hrec : scanChunks sq q t doc (i + 1) rest with
      | error err => simp [scanChunks, hc, hrec] at h
      | ok tail =>
        cases he with
        | head => exact (cosineSimilarity_length_of_ok sq q e0 s hc).symm
        | tail _ he => exact ih (i + 1) tail hrec e he

theorem scanChunks_exists (sq : ℚ → ℚ) (q : List ℚ) (t : ℚ) (doc : StoredDocument) :
    ∀ (i : Nat) (embs : List (List ℚ)),
    (∀ e ∈ embs, e.length = q.length) →
    ∃ l, scanChunks sq q t doc i embs = .ok l := by
  intro i embs
  induction embs generalizing i with
  | nil =>
    intro _
    exact ⟨[], rfl⟩
  | cons e rest ih =>
    intro h
    obtain ⟨s, hc⟩ := cosineSimilarity_ok_of_eq sq q e (h e (.head rest)).symm
    obtain ⟨tail, hrec⟩ := ih (i + 1) (fun x hx => h x (.tail e hx))
    by_cases hts : t ≤ s
    · exact ⟨_, by simp only [scanChunks, hc, hrec]; rw [if_pos hts]⟩
    · exact ⟨tail, by simp only [scanChunks, hc, hrec]; rw [if_neg hts]⟩

theorem collectResults_ok_forall (sq : ℚ → ℚ) (q : List ℚ) (t : ℚ) :
    ∀ (docs : List StoredDocument) (kept : List SearchResult),
    collectResults sq q t docs = .ok kept →
    ∀ r ∈ kept, t ≤ r.similarity ∧
      ∃ doc ∈ docs, r.documentId = doc._id ∧ r.fileName = doc.fileName := by
  intro docs
  induction docs with
  | nil =>
    intro kept h r hr
    simp only [collectResults, Except.ok.injEq] at h
    subst h
    cases hr
  | cons doc rest ih =>
    intro kept h r hr
    by_cases hemb : 0 < doc.embeddings.length
    · cases hscan : scanChunks sq q t doc 0 doc.embeddings with
      | error err => simp [collectResults, hemb, hscan] at h
      | ok here =>
        cases hrec : collectResults sq q t rest with
        | error err => simp [collectResults, hemb, hscan, hrec] at h
        | ok there =>
          simp only [collectResults, if_pos hemb, hscan, hrec, Except.ok.injEq] at h
          subst h
          rcases List.mem_append.mp hr with hr | hr
          · obtain ⟨h1, h2, h3⟩ := scanChunks_ok_forall sq q t doc 0 doc.embeddings here hscan r hr
            exact ⟨h1, doc, List.mem_cons_self doc rest, h2, h3⟩
          · obtain ⟨h1, d, hd, h2⟩ := ih there hrec r hr
            exact ⟨h1, d, List.mem_cons_of_mem doc hd, h2⟩
    · cases hrec : collectResults sq q t rest with
      | error err => simp [collectResults, hemb, hrec] at h
      | ok there =>
        simp only [collectResults, if_neg hemb, hrec, Except.ok.injEq] at h
        subst h
        rcases List.mem_append.mp hr with hr | hr
        · cases hr
        · obtain ⟨h1, d, hd, h2⟩ := ih there hrec r hr
          exact ⟨h1, d, List.mem_cons_of_mem doc hd, h2⟩

theorem collectResults_ok_lengths (sq : ℚ → ℚ) (q : List ℚ) (t : ℚ) :
    ∀ (docs : List StoredDocument) (kept : List SearchResult),
    collectResults sq q t docs = .ok kept →
    ∀ doc ∈ docs, ∀ e ∈ doc.embeddings, e.length = q.length := by
  intro docs
  induction docs with
  | nil =>
    intro kept _ doc hdoc
    cases hdoc
  | cons doc0 rest ih =>
    intro kept h doc hdoc
    by_cases hemb : 0 < doc0.embeddings.length
    · cases hscan : scanChunks sq q t doc0 0 doc0.embeddings with
      | error err => simp [collectResults, hemb, hscan] at h
      | ok here =>
        cases hrec : collectResults sq q t rest with
        | error err => simp [collectResults, hemb, hscan, hrec] at h
        | ok there =>
          cases hdoc with
          | head => exact scanChunks_ok_lengths sq q t doc0 0 doc0.embeddings here hscan
          | tail _ hdoc => exact ih there hrec doc hdoc
    · cases hrec : collectResults sq q t rest with
      | error err => simp [collectResults, hemb, hrec] at h
      | ok there =>
        cases hdoc with
        | head =>
          intro e he
          rw [List.length_pos] at hemb
          push_neg at hemb
          rw [hemb] at he
          cases he
        | tail _ hdoc => exact ih there hrec doc hdoc

theorem collectResults_exists (sq : ℚ → ℚ) (q : List ℚ) (t : ℚ) :
    ∀ (docs : List StoredDocument),
    (∀ doc ∈ docs, ∀ e ∈ doc.embeddings, e.length = q.length) →
    ∃ kept, collectResults sq q t docs = .ok kept := by
  intro docs
  induction docs with
  | nil =>
    intro _
    exact ⟨[], rfl⟩
  | cons doc rest ih =>
    intro h
    obtain ⟨there, hrec⟩ := ih (fun d hd => h d (.tail doc hd))
    by_cases hemb : 0 < doc.embeddings.length
    · obtain ⟨here, hscan⟩ :=
        scanChunks_exists sq q t doc 0 doc.embeddings (h doc (.head rest))
      exact ⟨here ++ there, by simp only [collectResults, if_pos hemb, hscan, hrec]⟩
    · exact ⟨[] ++ there, by simp only [collectResults, if_neg hemb, hrec]⟩

theorem collectResults_cases (sq : ℚ → ℚ) (q : List ℚ) (t : ℚ)
    (docs : List StoredDocument) :
    (∃ kept, collectResults sq q t docs = .ok kept) ∨
    collectResults sq q t docs = .error .dimensionMismatch := by
  cases h : collectResults sq q t docs with
  | ok kept => exact Or.inl ⟨kept, rfl⟩
  | error e =>
    cases e
    exact Or.inr rfl

theorem collectResults_error_of_mismatch (sq : ℚ → ℚ) (q : List ℚ) (t : ℚ)
    (docs : List StoredDocument)
    (h : ∃ doc ∈ docs, ∃ e ∈ doc.embeddings, e.length ≠ q.length) :
    collectResults sq q t docs = .error .dimensionMismatch := by
  obtain ⟨doc, hdoc, e, he, hne⟩ := h
  rcases collectResults_cases sq q t docs with ⟨kept, hk⟩ | herr
  · exact absurd (collectResults_ok_lengths sq q t docs kept hk doc hdoc e he) hne
  · exact herr

theorem search_ok_of_collect (sq : ℚ → ℚ) (q : List ℚ) (u : String) (limit : Nat)
    (t : ℚ) (db : List StoredDocument) (kept : List SearchResult)
    (h : collectResults sq q t (db.filter (fun d => d.userId == u)) = .ok kept) :
    searchSimilarDocuments sq q u limit t db = .ok ((kept.mergeSort resultLE).take limit) := by
  simp only [searchSimilarDocuments, h]

theorem search_error_of_collect (sq : ℚ → ℚ) (q : List ℚ) (u : String) (limit : Nat)
    (t : ℚ) (db : List StoredDocument) (err : SearchError)
    (h : collectResults sq q t (db.filter (fun d => d.userId == u)) = .error err) :
    searchSimilarDocuments sq q u limit t db = .error err := by
  simp only [searchSimilarDocuments, h]

theorem resultLE_trans (a b c : SearchResult) :
    resultLE a b → resultLE b c → resultLE a c := by
  intro hab hbc
  simp only [resultLE, decide_eq_true_eq] at hab hbc ⊢
  exact le_trans hbc hab

theorem resultLE_total (a b : SearchResult) : resultLE a b || resultLE b a := by
  simp only [resultLE, Bool.or_eq_true, decide_eq_true_eq]
  exact le_total b.similarity a.similarity

/-- C5: for every pair of equal-length vectors, cosineSimilarity returns
exactly 0 (an ok value, not an error) whenever either vector has Euclidean
norm 0 (equivalently, in exact arithmetic, whenever its sum of squares is 0);
otherwise it returns the dot product divided by the product of the two norms.
`sq` is any model of Math.sqrt sending 0 to 0 and positives to nonzeros. -/
theorem cosineSimilarity_zero_norm_and_value (sq : ℚ → ℚ) (h0 : sq 0 = 0)
    (hpos : ∀ x : ℚ, 0 < x → sq x ≠ 0) (a b : List ℚ) (hlen : a.length = b.length) :
    ((sumSq a = 0 ∨ sumSq b = 0) → cosineSimilarity sq a b = .ok 0) ∧
    (sumSq a ≠ 0 → sumSq b ≠ 0 →
      cosineSimilarity sq a b = .ok (dotList a b / (sq (sumSq a) * sq (sumSq b)))) := by
  constructor
  · intro hz
    simp only [cosineSimilarity]
    rw [if_neg (by simp [hlen])]
    rw [if_pos ?_]
    rcases hz with hz | hz
    · left
      rw [hz, h0]
    · right
      rw [hz, h0]
  · intro ha hb
    have ha0 : sq (sumSq a) ≠ 0 := hpos _ (lt_of_le_of_ne (sumSq_nonneg a) (Ne.symm ha))
    have hb0 : sq (sumSq b) ≠ 0 := hpos _ (lt_of_le_of_ne (sumSq_nonneg b) (Ne.symm hb))
    simp only [cosineSimilarity]
    rw [if_neg (by simp [hlen])]
    rw [if_neg (by simp [ha0, hb0])]

/-- C5 witness: both hypotheses hold for the concrete square-root model, and
the theorem yields exactly 0 for a zero vector against a nonzero vector of
the same length. -/
theorem cosineSimilarity_zero_norm_and_value_witness :
    cosineSimilarity sqrtModel [0, 0] [3, 4] = .ok 0 :=
  (cosineSimilarity_zero_norm_and_value sqrtModel rfl
      (fun _ hx => ne_of_gt hx) [0, 0] [3, 4] rfl).1
    (Or.inl (by decide))

/-- C10: the length guard of cosineSimilarity runs before the zero-norm
check, so a zero query vector compared against a candidate of a different
length still throws the dimension mismatch (it does not yield similarity 0),
and a search whose scanned candidates include such an embedding aborts. -/
theorem length_check_precedes_zero_check (sq : ℚ → ℚ) (q e : List ℚ) (u : String)
    (limit : Nat) (t : ℚ) (db : List StoredDocument) (doc : StoredDocument)
    (hdoc : doc ∈ db) (huser : doc.userId = u) (he : e ∈ doc.embeddings)
    (hlen : e.length ≠ q.length) (_hzq : sumSq q = 0) :
    cosineSimilarity sq q e = .error .dimensionMismatch ∧
    searchSimilarDocuments sq q u limit t db = .error .dimensionMismatch := by
  refine ⟨cosineSimilarity_error_of_ne sq q e (fun hq => hlen hq.symm), ?_⟩
  apply search_error_of_collect
  apply collectResults_error_of_mismatch
  exact ⟨doc, List.mem_filter.mpr ⟨hdoc, by simp [huser]⟩, e, he, hlen⟩

/-- C10 witness: a concrete all-zero query against a longer stored embedding
throws at the pair level and aborts the search. -/
theorem length_check_precedes_zero_check_witness :
    cosineSimilarity sqrtModel [0] [1, 2] = .error .dimensionMismatch ∧
    searchSimilarDocuments sqrtModel [0] "u" 5 0
      [⟨"d1", "u", "f1", ["c1"], [[1, 2]], "m"⟩] = .error .dimensionMismatch :=
  length_check_precedes_zero_check sqrtModel [0] [1, 2] "u" 5 0
    [⟨"d1", "u", "f1", ["c1"], [[1, 2]], "m"⟩] ⟨"d1", "u", "f1", ["c1"], [[1, 2]], "m"⟩
    (by decide) rfl (by decide) (by decide) (by decide)

/-- C3: if any embedding of the scanned candidate set (the searched user's
documents) has a length different from the query embedding, the whole search
fails with the dimension mismatch error: no partial result list is returned,
and the offending embedding is not padded, truncated, or skipped. -/
theorem search_aborts_on_dimension_mismatch (sq : ℚ → ℚ) (q : List ℚ) (u : String)
    (limit : Nat) (t : ℚ) (db : List StoredDocument)
    (h : ∃ doc ∈ db.filter (fun d => d.userId == u),
      ∃ e ∈ doc.embeddings, e.length ≠ q.length) :
    searchSimilarDocuments sq q u limit t db = .error .dimensionMismatch :=
  search_error_of_collect sq q u limit t db .dimensionMismatch
    (collectResults_error_of_mismatch sq q t _ h)

/-- C3 witness: a stored embedding of length 2 against a query of length 1
aborts the search even though another document matches perfectly. -/
theorem search_aborts_on_dimension_mismatch_witness :
    searchSimilarDocuments sqrtModel [1] "u" 5 0
      [⟨"d1", "u", "f1", ["c1"], [[1]], "m"⟩, ⟨"d2", "u", "f2", ["c2"], [[1, 2]], "m"⟩]
      = .error .dimensionMismatch :=
  search_aborts_on_dimension_mismatch sqrtModel [1] "u" 5 0
    [⟨"d1", "u", "f1", ["c1"], [[1]], "m"⟩, ⟨"d2", "u", "f2", ["c2"], [[1, 2]], "m"⟩]
    (by decide)

/-- C2: when every embedding of the searched user's documents has the same
length as the query embedding, search succeeds and returns at most limit
results, every returned result has similarity at least the threshold, and
the returned sequence is sorted non-increasing by similarity. -/
theorem search_limit_threshold_sorted (sq : ℚ → ℚ) (q : List ℚ) (u : String)
    (limit : Nat) (t : ℚ) (db : List StoredDocument)
    (h : ∀ doc ∈ db.filter (fun d => d.userId == u),
      ∀ e ∈ doc.embeddings, e.length = q.length) :
    ∃ res, searchSimilarDocuments sq q u limit t db = .ok res ∧
      res.length ≤ limit ∧ (∀ r ∈ res, t ≤ r.similarity) ∧
      res.Pairwise (fun a b => b.similarity ≤ a.similarity) := by
  obtain ⟨kept, hk⟩ := collectResults_exists sq q t _ h
  refine ⟨(kept.mergeSort resultLE).take limit,
    search_ok_of_collect sq q u limit t db kept hk, List.length_take_le _ _, ?_, ?_⟩
  · intro r hr
    have hmem : r ∈ kept := List.mem_mergeSort.mp (List.take_subset _ _ hr)
    exact (collectResults_ok_forall sq q t _ kept hk r hmem).1
  · have hs := List.sorted_mergeSort resultLE_trans resultLE_total kept
    have hs2 : (kept.mergeSort resultLE).Pairwise
        (fun a b => b.similarity ≤ a.similarity) := by
      refine hs.imp ?_
      intro a b hab
      simpa [resultLE] using hab
    exact hs2.sublist (List.take_sublist _ _)

/-- C2 witness: a one-document store whose single embedding matches the
query length; the search succeeds with the three guarantees. -/
theorem search_limit_threshold_sorted_witness :
    ∃ res, searchSimilarDocuments sqrtModel [1] "u" 5 0
        [⟨"d1", "u", "f1", ["c1"], [[1]], "m"⟩] = .ok res ∧
      res.length ≤ 5 ∧ (∀ r ∈ res, 0 ≤ r.similarity) ∧
      res.Pairwise (fun a b => b.similarity ≤ a.similarity) :=
  search_limit_threshold_sorted sqrtModel [1] "u" 5 0
    [⟨"d1", "u", "f1", ["c1"], [[1]], "m"⟩] (by decide)

/-- C4: every result of a search for user u originates from a document of
the store owned by u (its documentId and fileName are that document's), and
the outcome of the search depends only on the sublist of documents owned by
u: stores agreeing on that sublist give identical results, so another
user's documents can never contribute a result, however high its similarity. -/
theorem search_user_scoped (sq : ℚ → ℚ) (q : List ℚ) (u : String) (limit : Nat)
    (t : ℚ) (db : List StoredDocument) :
    (∀ res, searchSimilarDocuments sq q u limit t db = .ok res →
      ∀ r ∈ res, ∃ doc, doc ∈ db ∧ doc.userId = u ∧
        r.documentId = doc._id ∧ r.fileName = doc.fileName) ∧
    (∀ db2, db.filter (fun d => d.userId == u) = db2.filter (fun d => d.userId == u) →
      searchSimilarDocuments sq q u limit t db =
        searchSimilarDocuments sq q u limit t db2) := by
  constructor
  · intro res hres r hr
    cases hc : collectResults sq q t (db.filter (fun d => d.userId == u)) with
    | error e =>
      rw [search_error_of_collect sq q u limit t db e hc] at hres
      cases hres
    | ok kept =>
      rw [search_ok_of_collect sq q u limit t db kept hc, Except.ok.injEq] at hres
      subst hres
      have hmem : r ∈ kept := List.mem_mergeSort.mp (List.take_subset _ _ hr)
      obtain ⟨-, doc, hdocmem, hid, hfn⟩ :=
        collectResults_ok_forall sq q t _ kept hc r hmem
      obtain ⟨hdb, hu⟩ := List.mem_filter.mp hdocmem
      exact ⟨doc, hdb, by simpa using hu, hid, hfn⟩
  · intro db2 hfil
    simp only [searchSimilarDocuments]
    rw [hfil]

/-- C4 witness: in a two-user store the single result of user u's search
comes from u's document, and deleting the other user's document does not
change the outcome of u's search. -/
theorem search_user_scoped_witness :
    (∃ doc, doc ∈ [(⟨"d1", "u", "f1", ["c1"], [[1]], "m"⟩ : StoredDocument),
        ⟨"d2", "v", "f2", ["c2"], [[1]], "m"⟩] ∧ doc.userId = "u" ∧
      ("d1" : String) = doc._id ∧ ("f1" : String) = doc.fileName) ∧
    searchSimilarDocuments sqrtModel [1] "u" 5 0
        [⟨"d1", "u", "f1", ["c1"], [[1]], "m"⟩, ⟨"d2", "v", "f2", ["c2"], [[1]], "m"⟩] =
      searchSimilarDocuments sqrtModel [1] "u" 5 0
        [⟨"d1", "u", "f1", ["c1"], [[1]], "m"⟩] := by
  constructor
  · have hcollect : collectResults sqrtModel [1] 0
        (([(⟨"d1", "u", "f1", ["c1"], [[1]], "m"⟩ : StoredDocument),
          ⟨"d2", "v", "f2", ["c2"], [[1]], "m"⟩]).filter (fun d => d.userId == "u")) =
        .ok [⟨"d1", "f1", 0, "c1", 1, "m"⟩] := by decide
    have hsearch : searchSimilarDocuments sqrtModel [1] "u" 5 0
        [⟨"d1", "u", "f1", ["c1"], [[1]], "m"⟩, ⟨"d2", "v", "f2", ["c2"], [[1]], "m"⟩] =
        .ok [⟨"d1", "f1", 0, "c1", 1, "m"⟩] := by
      rw [search_ok_of_collect sqrtModel [1] "u" 5 0 _ _ hcollect]
      rw [List.mergeSort_singleton]
      rfl
    exact (search_user_scoped sqrtModel [1] "u" 5 0
        [⟨"d1", "u", "f1", ["c1"], [[1]], "m"⟩, ⟨"d2", "v", "f2", ["c2"], [[1]], "m"⟩]).1
      [⟨"d1", "f1", 0, "c1", 1, "m"⟩] hsearch ⟨"d1", "f1", 0, "c1", 1, "m"⟩
      (List.mem_singleton.mpr rfl)
  · exact (search_user_scoped sqrtModel [1] "u" 5 0
        [⟨"d1", "u", "f1", ["c1"], [[1]], "m"⟩, ⟨"d2", "v", "f2", ["c2"], [[1]], "m"⟩]).2
      [⟨"d1", "u", "f1", ["c1"], [[1]], "m"⟩] (by decide)

/-- C7: the sort performed by search is a stable sort with similarity as the
only key: search returns exactly the stable descending sort of the kept
results truncated to limit, and any two kept results with equal similarity
keep their relative scan order (document retrieval order, then chunk index)
in the sorted sequence. -/
theorem search_sort_stable (sq : ℚ → ℚ) (q : List ℚ) (u : String) (limit : Nat)
    (t : ℚ) (db : List StoredDocument) (kept : List SearchResult)
    (hkept : collectResults sq q t (db.filter (fun d => d.userId == u)) = .ok kept) :
    searchSimilarDocuments sq q u limit t db =
      .ok ((kept.mergeSort resultLE).take limit) ∧
    ∀ a b : SearchResult, [a, b].Sublist kept → a.similarity = b.similarity →
      [a, b].Sublist (kept.mergeSort resultLE) := by
  refine ⟨search_ok_of_collect sq q u limit t db kept hkept, ?_⟩
  intro a b hsub heq
  refine List.pair_sublist_mergeSort resultLE_trans resultLE_total ?_ hsub
  simp [resultLE, heq]

/-- C7 witness: two chunks of one document with equal similarity 1; the pair
keeps its scan order through the sort. -/
theorem search_sort_stable_witness :
    collectResults sqrtModel [1] 0
        (([(⟨"d1", "u", "f1", ["c1", "c2"], [[1], [1]], "m"⟩ : StoredDocument)]).filter
          (fun d => d.userId == "u")) =
      .ok [⟨"d1", "f1", 0, "c1", 1, "m"⟩, ⟨"d1", "f1", 1, "c2", 1, "m"⟩] ∧
    [(⟨"d1", "f1", 0, "c1", 1, "m"⟩ : SearchResult), ⟨"d1", "f1", 1, "c2", 1, "m"⟩].Sublist
      (([(⟨"d1", "f1", 0, "c1", 1, "m"⟩ : SearchResult),
        ⟨"d1", "f1", 1, "c2", 1, "m"⟩]).mergeSort resultLE) := by
  have hcollect : collectResults sqrtModel [1] 0
      (([(⟨"d1", "u", "f1", ["c1", "c2"], [[1], [1]], "m"⟩ : StoredDocument)]).filter
        (fun d => d.userId == "u")) =
      .ok [⟨"d1", "f1", 0, "c1", 1, "m"⟩, ⟨"d1", "f1", 1, "c2", 1, "m"⟩] := by decide
  refine ⟨hcollect, ?_⟩
  exact (search_sort_stable sqrtModel [1] "u" 5 0
      [⟨"d1", "u", "f1", ["c1", "c2"], [[1], [1]], "m"⟩]
      [⟨"d1", "f1", 0, "c1", 1, "m"⟩, ⟨"d1", "f1", 1, "c2", 1, "m"⟩] hcollect).2
    ⟨"d1", "f1", 0, "c1", 1, "m"⟩ ⟨"d1", "f1", 1, "c2", 1, "m"⟩
    (List.Sublist.refl _) rfl

/-- C9: the empty-chunk filter discards exactly the chunks whose trimmed
content is empty: the surviving chunks form a sublist of the input (original
document order preserved; in the list model the surviving chunks occupy the
contiguous positions 0, 1, ... so indices are renumbered from 0), every
retained chunk has positive trimmed length, every chunk with positive
trimmed length is retained, and the count of survivors is the count of
chunks with positive trimmed length. -/
theorem filterChunks_spec (cs : List String) :
    (filterChunks cs).Sublist cs ∧
    (∀ c ∈ filterChunks cs, 0 < (jsTrim c).length) ∧
    (∀ c ∈ cs, 0 < (jsTrim c).length → c ∈ filterChunks cs) ∧
    (filterChunks cs).length = cs.countP (fun c => decide (0 < (jsTrim c).length)) := by
  refine ⟨List.filter_sublist cs, ?_, ?_, ?_⟩
  · intro c hc
    have := List.of_mem_filter hc
    simpa using this
  · intro c hc h
    exact List.mem_filter.mpr ⟨hc, by simpa using h⟩
  · exact (List.countP_eq_length_filter
      (fun c => decide (0 < (jsTrim c).length)) cs).symm

/-- C9 witness: a retained chunk has positive trimmed length, and a chunk
with positive trimmed length survives the filter. -/
theorem filterChunks_spec_witness :
    0 < (jsTrim "hi").length ∧ ("hi" : String) ∈ filterChunks ["hi", "  "] :=
  ⟨(filterChunks_spec ["hi", "  "]).2.1 "hi" (by decide),
   (filterChunks_spec ["hi", "  "]).2.2.1 "hi" (by decide) (by decide)⟩

/-- C6: when embedding generation fails, the failure is caught and the upload
completes: the response still reports success with the filtered chunks, the
embeddings sequence is empty, the failure reason is reported alongside, and
the document record handed to the store is the chunks-only document. -/
theorem upload_embedding_failure_degrades (sq : ℚ → ℚ) (u fn : String)
    (rawChunks : List String) (msg : String) :
    (processUpload sq u fn rawChunks (.failure msg)).1.success = true ∧
    (processUpload sq u fn rawChunks (.failure msg)).1.chunks = filterChunks rawChunks ∧
    (processUpload sq u fn rawChunks (.failure msg)).1.embeddings = [] ∧
    (processUpload sq u fn rawChunks (.failure msg)).1.embeddingCount = 0 ∧
    (processUpload sq u fn rawChunks (.failure msg)).1.hasEmbeddings = false ∧
    (processUpload sq u fn rawChunks (.failure msg)).1.embeddingError = some msg ∧
    (processUpload sq u fn rawChunks (.failure msg)).2.chunks = filterChunks rawChunks ∧
    (processUpload sq u fn rawChunks (.failure msg)).2.embeddings = [] := by
  simp [processUpload]

/-- C1 counterexample: the raw vector [0, 0] truncates to a zero-norm vector,
yet normalization is not skipped: the stored vector is [NaN, NaN] (each
component is 0/0), not the original zero vector as the claim states. -/
theorem normalize_zero_norm_counterexample :
    sumSq (([(0:ℚ), 0]).take 768) = 0 ∧
    normalizeEmbedding sqrtModel [0, 0] = [JSNum.nan, JSNum.nan] ∧
    normalizeEmbedding sqrtModel [0, 0] ≠ [JSNum.num 0, JSNum.num 0] :=
  ⟨by decide, by decide, by decide⟩

/-- C1 amended: on a raw vector whose truncated vector has Euclidean norm
exactly zero, the code divides every component by the zero magnitude anyway
(there is no skip), so the stored vector is all-NaN of the truncated length;
no exception is thrown (the map is total), but the components are NaN, not
the original zeros. Holds for any model of Math.sqrt sending 0 to 0. -/
theorem normalize_zero_norm_yields_nan (sq : ℚ → ℚ) (h0 : sq 0 = 0)
    (values : List ℚ) (hzero : sumSq (values.take 768) = 0) :
    normalizeEmbedding sq values =
      List.replicate (values.take 768).length JSNum.nan := by
  have hall : ∀ x ∈ values.take 768, x = 0 := (sumSq_eq_zero_iff _).mp hzero
  simp only [normalizeEmbedding]
  rw [hzero, h0]
  have hnan : ∀ b ∈ (values.take 768).map (fun val => jsDiv val 0), b = JSNum.nan := by
    intro b hb
    obtain ⟨x, hx, rfl⟩ := List.mem_map.mp hb
    simp [jsDiv, hall x hx]
  rw [List.eq_replicate_of_mem hnan, List.length_map]

/-- C1 amended witness: the concrete zero raw vector [0, 0] is stored as
[NaN, NaN]. -/
theorem normalize_zero_norm_yields_nan_witness :
    sqrtModel 0 = 0 ∧ sumSq (([(0:ℚ), 0]).take 768) = 0 ∧
    normalizeEmbedding sqrtModel [0, 0] =
      List.replicate (([(0:ℚ), 0]).take 768).length JSNum.nan :=
  ⟨rfl, by decide, normalize_zero_norm_yields_nan sqrtModel rfl [0, 0] (by decide)⟩

/-- C8 counterexample: a raw service vector with fewer than 768 components
(here length 1) is stored with its own length, not padded to 768, so the
claim that every stored embedding has exactly 768 components fails. -/
theorem truncation_short_vector_counterexample :
    normalizeEmbedding sqrtModel [1] = [JSNum.num 1] ∧
    (normalizeEmbedding sqrtModel [1]).length = 1 ∧
    (normalizeEmbedding sqrtModel [1]).length ≠ 768 :=
  ⟨by decide, by decide, by decide⟩

/-- C8 amended: each raw embedding vector is truncated to its first
min(768, length) components before normalization: the stored length is
min 768 (raw length) — exactly 768 whenever the service returned at least
768 components — and stored component i is raw component i divided by the
magnitude of the truncated vector (components beyond index 767 are
discarded, none averaged or re-projected). -/
theorem normalize_truncates_to_min_768 (sq : ℚ → ℚ) (values : List ℚ) :
    (normalizeEmbedding sq values).length = min 768 values.length ∧
    (768 ≤ values.length → (normalizeEmbedding sq values).length = 768) ∧
    (∀ i : Nat, i < 768 →
      (normalizeEmbedding sq values)[i]? =
        (values[i]?).map (fun v => jsDiv v (sq (sumSq (values.take 768))))) := by
  refine ⟨?_, ?_, ?_⟩
  · simp [normalizeEmbedding]
  · intro h
    simp [normalizeEmbedding, Nat.min_eq_left h]
  · intro i hi
    simp only [normalizeEmbedding, List.getElem?_map]
    rw [List.getElem?_take_of_lt hi]

/-- C8 amended witness: a raw vector of length 768 is stored with length
exactly 768, and its component 0 is the corresponding raw component divided
by the magnitude. -/
theorem normalize_truncates_to_min_768_witness :
    768 ≤ (List.replicate 768 (1:ℚ)).length ∧
    (normalizeEmbedding sqrtModel (List.replicate 768 (1:ℚ))).length = 768 ∧
    ((0:Nat) < 768) ∧
    (normalizeEmbedding sqrtModel (List.replicate 768 (1:ℚ)))[0]? =
      ((List.replicate 768 (1:ℚ))[0]?).map
        (fun v => jsDiv v (sqrtModel (sumSq ((List.replicate 768 (1:ℚ)).take 768)))) :=
  ⟨le_of_eq (List.length_replicate 768 (1:ℚ)).symm,
   (normalize_truncates_to_min_768 sqrtModel _).2.1
     (le_of_eq (List.length_replicate 768 (1:ℚ)).symm),
   by decide, (normalize_truncates_to_min_768 sqrtModel _).2.2 0 (by decide)⟩

example : cosineSimilarity sqrtModel [1] [1] = .ok 1 := by decide
example : cosineSimilarity sqrtModel [0, 0] [1, 2] = .ok 0 := by decide
example : cosineSimilarity sqrtModel [1] [1, 2] = .error .dimensionMismatch := by decide
example : normalizeEmbedding sqrtModel [0, 0] = [.nan, .nan] := by decide
example : filterChunks ["a", " ", "b"] = ["a", "b"] := by decide
